import Mathlib

/-!
# Verification of the resumable document-parsing pipeline

Shallow embedding of the pipeline orchestrator of the `document_parser`
repository: the splitter (`chunker.py`), the manifest completeness detector
and stage state machine (`functions/document_parser/main.py`), the
chunk-processor sub-unit loop (`functions/chunk_processor/main.py`), the
embedder sub-unit loop (`functions/embedder/main.py`), and the retry policy
placed on the remote-start calls.  Object-storage state is passed explicitly;
remote calls are recorded as events; exceptions are modelled by explicit
branching on success oracles.
-/

namespace DocPipeline

/-! ## Splitter — `split_file_into_chunks` in `Uploader_processor/chunker.py`
and `functions/chunk_processor/chunker.py`.

The Python loop repeatedly does `data = infile.read(chunk_bytes)` and stops on
an empty read.  `read(0)` returns the empty byte string, so a zero chunk size
yields zero chunks; otherwise each iteration takes the next `chunk_bytes`
bytes. -/

/-- One chunk per `infile.read(chunk_bytes)` iteration: take `chunkBytes`
elements, recurse on the rest, stop when the remaining data is empty (or when
`chunkBytes = 0`, where `read` returns nothing and the loop breaks at once). -/
def split_chunks {α : Type} (chunkBytes : Nat) (data : List α) : List (List α) :=
  if chunkBytes = 0 then []
  else if h : data.isEmpty then []
  else data.take chunkBytes :: split_chunks chunkBytes (data.drop chunkBytes)
termination_by data.length
decreasing_by
  simp only [List.isEmpty_iff] at h
  have hd : 0 < data.length := List.length_pos.mpr h
  have hcb : 0 < chunkBytes := Nat.pos_of_ne_zero (by assumption)
  simp only [List.length_drop]
  omega

/-- `split_file_into_chunks(local_path, chunk_size_mb)`: the chunk size in
bytes is `chunk_size_mb * 1024 * 1024`. -/
def split_file_into_chunks {α : Type} (chunk_size_mb : Nat) (data : List α) :
    List (List α) :=
  split_chunks (chunk_size_mb * 1024 * 1024) data

/-! ## Manifest and completeness detector —
`check_manifest_and_decide` in `functions/document_parser/main.py`. -/

/-- The manifest record: `num_chunks` is read with `.get("num_chunks", 0)`
(a missing field reads as `0`), `chunk_files` with `.get("chunk_files", [])`.
Chunk names are kept abstract (`α`). -/
structure Manifest (α : Type) where
  num_chunks : Nat
  chunk_files : List α
deriving DecidableEq

/-- `check_manifest_and_decide(folder)`: `"WAIT"` when the manifest blob does
not exist; otherwise `"LRO"`/`"SINGLE"` when the listed chunk set has exactly
`num_chunks` elements *and* equals the declared set, `"WAIT"` otherwise.
The observed set `actual_chunk_files` models the GCS listing. -/
def check_manifest_and_decide {α : Type} [DecidableEq α]
    (manifest : Option (Manifest α)) (actual_chunk_files : Finset α) : String :=
  match manifest with
  | none => "WAIT"
  | some m =>
    if actual_chunk_files.card = m.num_chunks ∧
        m.chunk_files.toFinset = actual_chunk_files then
      if m.num_chunks > 1 then "LRO" else "SINGLE"
    else "WAIT"

/-! ## Stage state machine — `functions/document_parser/main.py`. -/

/-- The checkpoint record stored at `metadata/<folder>/report.json`:
`lro_id` is absent for the single-document path, `status` is `"IN_PROGRESS"`
or `"COMPLETED"`. -/
structure MetadataRecord where
  lro_id : Option String
  status : String
deriving DecidableEq

/-- Python truthiness of the `lro_id` value (`None` and `""` are falsy). -/
def truthy : Option String → Bool
  | none => false
  | some s => s ≠ ""

/-- `get_lro_status(folder)`: reads the metadata blob and classifies it as
`"COMPLETE"`, `"RESUME"` or `"NEW"`.  (Defined in the source but never called
by `lro_starter`.) -/
def get_lro_status (metadata : Option MetadataRecord) : String :=
  match metadata with
  | none => "NEW"
  | some m =>
    if m.status = "COMPLETED" then "COMPLETE"
    else if m.status = "IN_PROGRESS" ∧ truthy m.lro_id then "RESUME"
    else "NEW"

/-- Remote document-parser calls issued by the state machine.
`get_operation` is the poll of an outstanding handle (used by the
LRO-poller drafts, never by `lro_starter`). -/
inductive RemoteCall
  | batch_process_documents
  | process_document
  | get_operation (handle : String)
deriving DecidableEq

/-- Observable events of one invocation, in execution order. -/
inductive Event
  | remote (c : RemoteCall)
  | checkpoint_write (m : MetadataRecord)
deriving DecidableEq

/-- Storage state seen by `functions/document_parser/main.py` for one unit:
the manifest blob, the observed chunk set, the checkpoint record
(`metadata/<folder>/report.json`) and the two structured outputs of the
single-document path. -/
structure DPState (α : Type) where
  manifest : Option (Manifest α)
  chunks : Finset α
  metadata : Option MetadataRecord
  report_text : Option String
  report_entities : Option String
deriving DecidableEq

/-- `start_lro(folder)`: issues `batch_process_documents` first, then writes
`{"lro_id": ..., "status": "IN_PROGRESS"}` to the metadata blob.  `lro_name`
is the operation name returned by the remote service. -/
def start_lro {α : Type} (lro_name : String) (st : DPState α) :
    DPState α × List Event :=
  let record : MetadataRecord := ⟨some lro_name, "IN_PROGRESS"⟩
  ({ st with metadata := some record },
   [Event.remote RemoteCall.batch_process_documents,
    Event.checkpoint_write record])

/-- `start_single_processing(folder)`: calls `process_document`, writes the
extracted text and entities, then writes `{"status": "COMPLETED"}` (no
`lro_id` key) to the metadata blob. -/
def start_single_processing {α : Type} (extracted_text extracted_entities : String)
    (st : DPState α) : DPState α × List Event :=
  let record : MetadataRecord := ⟨none, "COMPLETED"⟩
  ({ st with metadata := some record,
             report_text := some extracted_text,
             report_entities := some extracted_entities },
   [Event.remote RemoteCall.process_document,
    Event.checkpoint_write record])

/-- `lro_starter(event, context)`, the entry point: decides via
`check_manifest_and_decide` and dispatches; it makes no read of the
metadata checkpoint (`get_lro_status` is never invoked). -/
def lro_starter {α : Type} [DecidableEq α]
    (lro_name extracted_text extracted_entities : String) (st : DPState α) :
    DPState α × List Event :=
  let processing_type := check_manifest_and_decide st.manifest st.chunks
  if processing_type = "LRO" then start_lro lro_name st
  else if processing_type = "SINGLE" then
    start_single_processing extracted_text extracted_entities st
  else (st, [])

/-- Scanner for the claimed temporal order: every remote parser call must be
preceded by an earlier `checkpoint_write` with status `"IN_PROGRESS"`. -/
def calls_after_processing_write (seen : Bool) : List Event → Bool
  | [] => true
  | Event.checkpoint_write m :: rest =>
      calls_after_processing_write (seen || (m.status = "IN_PROGRESS" : Bool)) rest
  | Event.remote _ :: rest => seen && calls_after_processing_write seen rest

end DocPipeline

namespace ChunkProcessor

/-! ## Chunk processor — `functions/chunk_processor/main.py`.

`process_chunking` loads the checkpoint (`chunks_metadata.json`) and failure
log (`chunks_errors.json`), splits the document text and writes one blob per
text chunk, checkpointing after each success.  `save_failed_chunk` takes
*three* required parameters; the success path calls it with only two
(`save_failed_chunk(folder_prefix, failed_chunks)` on line 129), so that call
raises `TypeError` inside the `try` block, and the blanket `except` handler
then records the current chunk as failed. -/

/-- One entry of `chunks_errors.json` (`{"chunk": ..., "error": ...}`). -/
structure FailEntry where
  chunk : String
  error : String
deriving DecidableEq

/-- Remote storage for one unit: the processed-chunk checkpoint, the failure
log, and the chunk objects written so far. -/
structure CPRemote where
  checkpoint : List String
  error_log : List FailEntry
  objects : List String
deriving DecidableEq

/-- Local loop state: the in-memory `processed_chunks` set and the in-memory
`failed_chunks` list (loaded once, mutated locally). -/
structure CPLocal where
  processed : List String
  failed_local : List FailEntry
deriving DecidableEq

/-- `save_failed_chunk(folder, chunk_filename, error_message)`: reloads the
remote log and appends one entry. -/
def save_failed_chunk (r : CPRemote) (chunk_filename error_message : String) :
    CPRemote :=
  { r with error_log := r.error_log ++ [⟨chunk_filename, error_message⟩] }

/-- The `str(e)` text of the `TypeError` raised by the two-argument call to
the three-parameter `save_failed_chunk`. -/
def typeErrorMsg : String :=
  "TypeError: save_failed_chunk missing 1 required positional argument"

/-- Zero-padding of `f"{idx+1:03}"`. -/
def pad3 (n : Nat) : String :=
  let s := toString n
  if s.length < 3 then String.mk (List.replicate (3 - s.length) '0') ++ s else s

/-- `chunk_filename = f"chunk_{idx+1:03}.json"` for 1-based index `n`. -/
def chunk_filename (n : Nat) : String := "chunk_" ++ pad3 n ++ ".json"

/-- One iteration of the `for idx, chunk in enumerate(chunks)` loop.
`uploadOk` tells whether the blob upload for a given filename succeeds
(models storage exceptions); `retry_chunks` is the retry set computed once
before the loop.  On a successful upload of a chunk in the retry set, the
buggy two-argument `save_failed_chunk` call raises `TypeError`, which the
`except` clause catches and logs against this chunk. -/
def process_chunk_step (uploadOk : String → Bool) (retry_chunks : List String)
    (st : CPLocal × CPRemote) (filename : String) : CPLocal × CPRemote :=
  let loc := st.1
  let rem := st.2
  if filename ∈ loc.processed then st
  else if uploadOk filename then
    let rem1 : CPRemote := { rem with objects := rem.objects ++ [filename] }
    let loc1 : CPLocal := { loc with processed := loc.processed ++ [filename] }
    let rem2 : CPRemote := { rem1 with checkpoint := loc1.processed }
    if filename ∈ retry_chunks then
      let loc2 : CPLocal :=
        { loc1 with failed_local :=
            loc1.failed_local.filter (fun e => e.chunk ≠ filename) }
      (loc2, save_failed_chunk rem2 filename typeErrorMsg)
    else (loc1, rem2)
  else
    (loc, save_failed_chunk rem filename "upload error")

/-- `process_chunking(event, context)`: load checkpoint and failure log,
compute the retry set, then run the loop over `chunk_001.json`,
`chunk_002.json`, ... (one filename per text chunk). -/
def process_chunking (uploadOk : String → Bool) (num_chunks : Nat)
    (rem : CPRemote) : CPLocal × CPRemote :=
  let retry_chunks := rem.error_log.map (fun e => e.chunk)
  let filenames := (List.range num_chunks).map (fun i => chunk_filename (i + 1))
  filenames.foldl (process_chunk_step uploadOk retry_chunks)
    (⟨rem.checkpoint, rem.error_log⟩, rem)

end ChunkProcessor

namespace Embedder

/-! ## Embedder — `functions/embedder/main.py`. -/

open ChunkProcessor (FailEntry)

/-- A chunk blob under `structured_data/<folder>/chunks/`: its base name and
the `"text"` field of its JSON payload. -/
structure EmbBlob where
  name : String
  text : String
deriving DecidableEq

/-- State carried by one `process_embedding` run: the in-memory
`processed_chunks` set, the in-memory `failed_chunks` list, the remote error
blob, the `.npy` embedding objects written, and the remote checkpoint blob. -/
structure EmbState where
  processed : List String
  failed_local : List FailEntry
  remote_log : List FailEntry
  embeddings : List String
  checkpoint : List String
deriving DecidableEq

/-- Left-to-right, non-overlapping replacement of every occurrence of `pat`
by `rep`, the semantics of Python `str.replace` (for a non-empty pattern).
Structural recursion on a fuel argument so that it evaluates; the fuel is
the input length, which suffices since each step consumes at least one
character. -/
def replaceAllFuel (pat rep : List Char) : Nat → List Char → List Char
  | 0, l => l
  | _ + 1, [] => []
  | fuel + 1, c :: rest =>
    if pat ≠ [] ∧ pat.isPrefixOf (c :: rest) then
      rep ++ replaceAllFuel pat rep fuel ((c :: rest).drop pat.length)
    else c :: replaceAllFuel pat rep fuel rest

/-- `chunk_filename.replace(".json", ".npy")`. -/
def embedding_filename (s : String) : String :=
  String.mk (replaceAllFuel ".json".toList ".npy".toList s.toList.length s.toList)

/-- Python `not chunk_text.strip()`: true iff every character is whitespace
(in particular for the empty string). -/
def isBlank (s : String) : Bool := s.toList.all (fun c => c.isWhitespace)

/-- One iteration of the loop over chunk blobs.  Already-processed and
blank-text chunks are skipped with no state change; `encodeOk` tells whether
`model.encode` + `np.save` succeed for a given blob name.  On success the
embedding and checkpoint are written and the error blob is overwritten with
the locally filtered list; on failure `log_failed_embedding` reloads the
remote error blob and appends. -/
def process_embedding_step (encodeOk : String → Bool) (st : EmbState)
    (b : EmbBlob) : EmbState :=
  let embName := embedding_filename b.name
  if embName ∈ st.processed then st
  else if isBlank b.text then st
  else if encodeOk b.name then
    let processed1 := st.processed ++ [embName]
    let failed1 := st.failed_local.filter (fun e => e.chunk ≠ b.name)
    { st with embeddings := st.embeddings ++ [embName],
              processed := processed1,
              checkpoint := processed1,
              failed_local := failed1,
              remote_log := failed1 }
  else
    { st with remote_log := st.remote_log ++ [⟨b.name, "embedding error"⟩] }

/-- The loop of `process_embedding` from an explicit starting state. -/
def process_embedding (encodeOk : String → Bool) (blobs : List EmbBlob)
    (st : EmbState) : EmbState :=
  blobs.foldl (process_embedding_step encodeOk) st

/-- `process_embedding(event, context)` entry: the in-memory set and list are
loaded from the remote checkpoint and error blobs. -/
def process_embedding_run (encodeOk : String → Bool) (blobs : List EmbBlob)
    (checkpoint0 : List String) (log0 : List FailEntry)
    (embeddings0 : List String) : EmbState :=
  process_embedding encodeOk blobs ⟨checkpoint0, log0, log0, embeddings0, checkpoint0⟩

end Embedder

namespace RetryPolicy

/-! ## Retry policy on the remote-start calls.

Modelled from the spec: the backoff engine itself is the external
`google.api_core.retry.Retry` decorator, not code under `src/`; only its
parameters appear in the source
(`@Retry(initial=1.0, maximum=60.0, multiplier=2.0, deadline=600.0)` on
`start_lro` in `functions/document_parser/main.py` and
`functions/lro_starter/main.py`).  Per the spec, a failed attempt sleeps
`min(initial * multiplier^n, maximum)` time units and the call fails once the
total elapsed time reaches the deadline. -/

/-- Modelled from the spec: the `n`-th backoff delay for given `initial`,
`multiplier = 2` and `maximum` parameters. -/
def backoff_delay (initial maximum n : Nat) : Nat :=
  min (initial * 2 ^ n) maximum

/-- The delay sequence of the `@Retry` decorator on `start_lro`:
`initial=1`, `multiplier=2`, `maximum=60`. -/
def start_lro_delay (n : Nat) : Nat := backoff_delay 1 60 n

/-- Modelled from the spec: the retry driver.  `succeeds k` tells whether the
`k`-th attempt succeeds; on a transient failure the call retries after the
backoff delay until the accumulated elapsed time reaches `deadline`, at which
point it gives up (`none`, the `TransientRetryExhausted` promotion). -/
def retry_from (succeeds : Nat → Bool) (deadline n elapsed : Nat) : Option Nat :=
  if succeeds n then some n
  else if deadline ≤ elapsed then none
  else retry_from succeeds deadline (n + 1) (elapsed + start_lro_delay n)
termination_by deadline - elapsed
decreasing_by
  have h1 : 1 ≤ start_lro_delay n := by
    have h2 : 1 ≤ 2 ^ n := Nat.one_le_two_pow
    simp only [start_lro_delay, backoff_delay, one_mul]
    omega
  omega

/-- The surrounding call with the source's parameters: attempts start at 0
with no elapsed time, deadline 600. -/
def start_lro_with_retry (succeeds : Nat → Bool) : Option Nat :=
  retry_from succeeds 600 0 0

end RetryPolicy

/-! # Theorems -/

namespace DocPipeline

theorem split_chunks_zero {α : Type} (data : List α) :
    split_chunks 0 data = [] := by
  rw [split_chunks]
  simp

theorem split_chunks_nil {α : Type} (s : Nat) :
    split_chunks s ([] : List α) = [] := by
  rw [split_chunks]
  simp

theorem split_chunks_cons {α : Type} (s : Nat) (hs : 1 ≤ s) (a : α) (l : List α) :
    split_chunks s (a :: l) =
      (a :: l).take s :: split_chunks s ((a :: l).drop s) := by
  rw [split_chunks]
  simp only [List.isEmpty_cons, if_neg (by omega : ¬s = 0)]
  rfl

theorem ceil_div_step (n s : Nat) (hs : 1 ≤ s) (hn : 1 ≤ n) :
    (n - s + s - 1) / s + 1 = (n + s - 1) / s := by
  rcases Nat.le_total n s with h | h
  · have h1 : n - s = 0 := by omega
    rw [h1]
    have h2 : (0 + s - 1) / s = 0 := Nat.div_eq_of_lt (by omega)
    rw [h2]
    symm
    apply Nat.div_eq_of_lt_le (by omega) (by omega)
  · have h3 : n + s - 1 = n - s + s - 1 + s := by omega
    rw [h3, Nat.add_div_right _ (by omega : 0 < s)]

theorem split_chunks_length {α : Type} (s : Nat) (hs : 1 ≤ s) :
    ∀ (n : Nat) (data : List α), data.length ≤ n →
      (split_chunks s data).length = (data.length + s - 1) / s := by
  intro n
  induction n with
  | zero =>
    intro data hd
    have hnil : data = [] := by
      cases data with
      | nil => rfl
      | cons a l => simp at hd
    subst hnil
    rw [split_chunks_nil]
    simp [Nat.div_eq_of_lt (by omega : s - 1 < s)]
  | succ n ih =>
    intro data hd
    cases data with
    | nil =>
      rw [split_chunks_nil]
      simp [Nat.div_eq_of_lt (by omega : s - 1 < s)]
    | cons a l =>
      rw [split_chunks_cons s hs a l]
      simp only [List.length_cons]
      rw [ih ((a :: l).drop s) (by simp only [List.length_drop, List.length_cons] at hd ⊢; omega)]
      simp only [List.length_drop, List.length_cons]
      exact ceil_div_step (l.length + 1) s hs (by omega)

theorem split_chunks_join {α : Type} (s : Nat) (hs : 1 ≤ s) :
    ∀ (n : Nat) (data : List α), data.length ≤ n →
      (split_chunks s data).flatten = data := by
  intro n
  induction n with
  | zero =>
    intro data hd
    have hnil : data = [] := by
      cases data with
      | nil => rfl
      | cons a l => simp at hd
    subst hnil
    rw [split_chunks_nil]
    rfl
  | succ n ih =>
    intro data hd
    cases data with
    | nil =>
      rw [split_chunks_nil]
      rfl
    | cons a l =>
      rw [split_chunks_cons s hs a l]
      rw [List.flatten_cons]
      rw [ih ((a :: l).drop s) (by simp only [List.length_drop, List.length_cons] at hd ⊢; omega)]
      exact List.take_append_drop s (a :: l)

theorem split_chunks_parts {α : Type} (s : Nat) (hs : 1 ≤ s) :
    ∀ (n : Nat) (data : List α), data.length ≤ n →
      ∀ c ∈ (split_chunks s data).dropLast, c.length = s := by
  intro n
  induction n with
  | zero =>
    intro data hd
    have hnil : data = [] := by
      cases data with
      | nil => rfl
      | cons a l => simp at hd
    subst hnil
    rw [split_chunks_nil]
    simp
  | succ n ih =>
    intro data hd
    cases data with
    | nil =>
      rw [split_chunks_nil]
      simp
    | cons a l =>
      rw [split_chunks_cons s hs a l]
      cases hr : split_chunks s ((a :: l).drop s) with
      | nil => simp
      | cons b t =>
        intro c hc
        have hc2 : c = (a :: l).take s ∨ c ∈ (b :: t).dropLast := by
          have : ((a :: l).take s :: b :: t).dropLast
              = (a :: l).take s :: (b :: t).dropLast := rfl
          rw [this] at hc
          exact List.mem_cons.mp hc
        have hdropne : (a :: l).drop s ≠ [] := by
          intro hdrop
          rw [hdrop, split_chunks_nil] at hr
          exact List.cons_ne_nil b t hr.symm
        have hlen : s < (a :: l).length := by
          by_contra hcon
          push_neg at hcon
          have : ((a :: l).drop s).length = 0 := by
            simp only [List.length_drop]
            omega
          exact hdropne (List.eq_nil_of_length_eq_zero this)
        rcases hc2 with rfl | hmem
        · rw [List.length_take]
          omega
        · have hdlen : ((a :: l).drop s).length ≤ n := by
            simp only [List.length_drop]
            simp only [List.length_cons] at hlen hd ⊢
            omega
          have := ih ((a :: l).drop s) hdlen c
          rw [hr] at this
          exact this hmem

/-- C5: for every chunk size of at least one byte, the splitter produces
exactly `ceil(n / s)` chunks (zero when the input is empty), every chunk but
possibly the last has exactly `s` bytes, the concatenation of the chunks in
order is the original byte sequence, and the byte size used by
`split_file_into_chunks` is `chunk_size_mb * 1024 * 1024`. -/
theorem split_file_into_chunks_correct {α : Type} (s : Nat) (hs : 1 ≤ s)
    (data : List α) :
    (split_chunks s data).length = (data.length + s - 1) / s ∧
    (data.length = 0 → split_chunks s data = []) ∧
    (∀ c ∈ (split_chunks s data).dropLast, c.length = s) ∧
    (split_chunks s data).flatten = data ∧
    (∀ chunk_size_mb : Nat,
      split_file_into_chunks chunk_size_mb data
        = split_chunks (chunk_size_mb * 1024 * 1024) data) := by
  refine ⟨split_chunks_length s hs data.length data le_rfl, ?_,
    split_chunks_parts s hs data.length data le_rfl,
    split_chunks_join s hs data.length data le_rfl, fun _ => rfl⟩
  intro h0
  have hnil : data = [] := List.eq_nil_of_length_eq_zero h0
  subst hnil
  exact split_chunks_nil s

/-- Witness for C5 at `s = 3` on an eight-byte input. -/
theorem split_file_into_chunks_correct_witness :
    1 ≤ 3 ∧
    ((split_chunks 3 ([0, 1, 2, 3, 4, 5, 6, 7] : List Nat)).length
        = (([0, 1, 2, 3, 4, 5, 6, 7] : List Nat).length + 3 - 1) / 3 ∧
     (([0, 1, 2, 3, 4, 5, 6, 7] : List Nat).length = 0 →
        split_chunks 3 ([0, 1, 2, 3, 4, 5, 6, 7] : List Nat) = []) ∧
     (∀ c ∈ (split_chunks 3 ([0, 1, 2, 3, 4, 5, 6, 7] : List Nat)).dropLast,
        c.length = 3) ∧
     (split_chunks 3 ([0, 1, 2, 3, 4, 5, 6, 7] : List Nat)).flatten
        = [0, 1, 2, 3, 4, 5, 6, 7] ∧
     (∀ chunk_size_mb : Nat,
        split_file_into_chunks chunk_size_mb ([0, 1, 2, 3, 4, 5, 6, 7] : List Nat)
          = split_chunks (chunk_size_mb * 1024 * 1024) [0, 1, 2, 3, 4, 5, 6, 7])) :=
  ⟨by decide, split_file_into_chunks_correct 3 (by decide) [0, 1, 2, 3, 4, 5, 6, 7]⟩

end DocPipeline

namespace DocPipeline

/-- C6 counterexample: a manifest whose `num_chunks` disagrees with the size
of its declared chunk set.  The declared set equals the observed set and
`expected_count = 1`, so the claim demands `"SINGLE"`, but the detector also
compares the observed count against `num_chunks` and returns `"WAIT"`. -/
theorem check_manifest_count_mismatch :
    (Manifest.mk 1 [0, 1] : Manifest Nat).chunk_files.toFinset
        = ({0, 1} : Finset Nat) ∧
    (Manifest.mk 1 [0, 1] : Manifest Nat).num_chunks = 1 ∧
    check_manifest_and_decide (some (Manifest.mk 1 [0, 1])) ({0, 1} : Finset Nat)
      ≠ "SINGLE" ∧
    check_manifest_and_decide (some (Manifest.mk 1 [0, 1])) ({0, 1} : Finset Nat)
      = "WAIT" := by
  decide

/-- C6 (amended): with `expected_count ≥ 1`, the detector returns `WAIT` when
the manifest is absent; `SINGLE` exactly when the observed set equals the
declared set, its size equals `expected_count`, and `expected_count = 1`;
`LRO` exactly when the observed set equals the declared set, its size equals
`expected_count`, and `expected_count > 1`; and `WAIT` exactly when the sets
differ or the observed count differs from `expected_count` (in particular
when the sets differ even though the counts match). -/
theorem check_manifest_and_decide_cases {α : Type} [DecidableEq α]
    (m : Manifest α) (actual : Finset α) (hm : 1 ≤ m.num_chunks) :
    (check_manifest_and_decide (none : Option (Manifest α)) actual = "WAIT") ∧
    (check_manifest_and_decide (some m) actual = "SINGLE" ↔
      m.chunk_files.toFinset = actual ∧ actual.card = m.num_chunks ∧
        m.num_chunks = 1) ∧
    (check_manifest_and_decide (some m) actual = "LRO" ↔
      m.chunk_files.toFinset = actual ∧ actual.card = m.num_chunks ∧
        1 < m.num_chunks) ∧
    (check_manifest_and_decide (some m) actual = "WAIT" ↔
      ¬(m.chunk_files.toFinset = actual ∧ actual.card = m.num_chunks)) := by
  have hLS : ("LRO" : String) ≠ "SINGLE" := by decide
  have hLW : ("LRO" : String) ≠ "WAIT" := by decide
  have hSW : ("SINGLE" : String) ≠ "WAIT" := by decide
  by_cases hset : m.chunk_files.toFinset = actual <;>
    by_cases hcard : actual.card = m.num_chunks <;>
      by_cases hgt : 1 < m.num_chunks <;>
        simp only [check_manifest_and_decide, hset, hcard, hgt, gt_iff_lt,
          and_true, and_false, true_and, false_and, if_true, if_false,
          ite_true, ite_false, not_true, not_false_iff, iff_true, iff_false] <;>
  simp_all <;> omega

/-- Witness for C6 (amended) at a consistent one-chunk manifest. -/
theorem check_manifest_and_decide_cases_witness :
    1 ≤ (Manifest.mk 1 [0] : Manifest Nat).num_chunks ∧
    ((check_manifest_and_decide (none : Option (Manifest Nat)) ({0} : Finset Nat)
        = "WAIT") ∧
     (check_manifest_and_decide (some (Manifest.mk 1 [0])) ({0} : Finset Nat)
        = "SINGLE" ↔
       (Manifest.mk 1 [0] : Manifest Nat).chunk_files.toFinset = {0} ∧
         ({0} : Finset Nat).card = (Manifest.mk 1 [0] : Manifest Nat).num_chunks ∧
         (Manifest.mk 1 [0] : Manifest Nat).num_chunks = 1) ∧
     (check_manifest_and_decide (some (Manifest.mk 1 [0])) ({0} : Finset Nat)
        = "LRO" ↔
       (Manifest.mk 1 [0] : Manifest Nat).chunk_files.toFinset = {0} ∧
         ({0} : Finset Nat).card = (Manifest.mk 1 [0] : Manifest Nat).num_chunks ∧
         1 < (Manifest.mk 1 [0] : Manifest Nat).num_chunks) ∧
     (check_manifest_and_decide (some (Manifest.mk 1 [0])) ({0} : Finset Nat)
        = "WAIT" ↔
       ¬((Manifest.mk 1 [0] : Manifest Nat).chunk_files.toFinset = {0} ∧
         ({0} : Finset Nat).card = (Manifest.mk 1 [0] : Manifest Nat).num_chunks))) :=
  ⟨by decide, check_manifest_and_decide_cases (Manifest.mk 1 [0]) {0} (by decide)⟩

/-- C9: a manifest whose `num_chunks` field is missing or `0` (the code reads
it with default `0`) and whose declared chunk list is empty resolves, against
an empty observed set, to the single-document path: the detector returns
`"SINGLE"`, not `"WAIT"` — the `expected_count ≥ 1` precondition is not
enforced. -/
theorem empty_manifest_returns_single {α : Type} [DecidableEq α]
    (m : Manifest α) (h0 : m.num_chunks = 0) (hf : m.chunk_files = []) :
    check_manifest_and_decide (some m) (∅ : Finset α) = "SINGLE" ∧
    check_manifest_and_decide (some m) (∅ : Finset α) ≠ "WAIT" := by
  simp [check_manifest_and_decide, h0, hf]

/-- Witness for C9 at the concrete empty manifest. -/
theorem empty_manifest_returns_single_witness :
    (Manifest.mk 0 [] : Manifest Nat).num_chunks = 0 ∧
    (Manifest.mk 0 [] : Manifest Nat).chunk_files = [] ∧
    (check_manifest_and_decide (some (Manifest.mk 0 [])) (∅ : Finset Nat)
        = "SINGLE" ∧
     check_manifest_and_decide (some (Manifest.mk 0 [])) (∅ : Finset Nat)
        ≠ "WAIT") :=
  ⟨rfl, rfl, empty_manifest_returns_single (Manifest.mk 0 []) rfl rfl⟩

/-- C1: re-invoking `lro_starter` on a unit whose checkpoint record already
says `COMPLETED` (which the never-called `get_lro_status` classifies as
`"COMPLETE"`) issues a new `batch_process_documents` call and overwrites the
checkpoint record with `IN_PROGRESS`: the entry point never reads the record
and does not short-circuit, contradicting the module's own docstring. -/
theorem completed_unit_reinvocation_bug :
    get_lro_status (some ⟨none, "COMPLETED"⟩) = "COMPLETE" ∧
    (lro_starter "op-1" "t" "e"
        (⟨some ⟨2, [0, 1]⟩, {0, 1}, some ⟨none, "COMPLETED"⟩, none, none⟩ :
          DPState Nat)).2 =
      [Event.remote RemoteCall.batch_process_documents,
       Event.checkpoint_write ⟨some "op-1", "IN_PROGRESS"⟩] ∧
    (lro_starter "op-1" "t" "e"
        (⟨some ⟨2, [0, 1]⟩, {0, 1}, some ⟨none, "COMPLETED"⟩, none, none⟩ :
          DPState Nat)).1.metadata ≠ some ⟨none, "COMPLETED"⟩ := by
  decide

/-- C2: re-invoking `lro_starter` on a unit whose checkpoint record is
`IN_PROGRESS` with a non-null handle `op-0` (which the never-called
`get_lro_status` classifies as `"RESUME"`) starts a brand-new batch operation
and polls nothing: no `get_operation` call appears in the trace. -/
theorem processing_unit_reinvocation_bug :
    get_lro_status (some ⟨some "op-0", "IN_PROGRESS"⟩) = "RESUME" ∧
    (lro_starter "op-1" "t" "e"
        (⟨some ⟨2, [0, 1]⟩, {0, 1}, some ⟨some "op-0", "IN_PROGRESS"⟩, none,
          none⟩ : DPState Nat)).2 =
      [Event.remote RemoteCall.batch_process_documents,
       Event.checkpoint_write ⟨some "op-1", "IN_PROGRESS"⟩] ∧
    (∀ handle : String,
      Event.remote (RemoteCall.get_operation handle) ∉
        (lro_starter "op-1" "t" "e"
          (⟨some ⟨2, [0, 1]⟩, {0, 1}, some ⟨some "op-0", "IN_PROGRESS"⟩, none,
            none⟩ : DPState Nat)).2) := by
  refine ⟨by decide, by decide, ?_⟩
  intro handle
  intro hmem
  have h2 : (lro_starter "op-1" "t" "e"
      (⟨some ⟨2, [0, 1]⟩, {0, 1}, some ⟨some "op-0", "IN_PROGRESS"⟩, none,
        none⟩ : DPState Nat)).2 =
      [Event.remote RemoteCall.batch_process_documents,
       Event.checkpoint_write ⟨some "op-1", "IN_PROGRESS"⟩] := by decide
  rw [h2] at hmem
  rcases List.mem_cons.mp hmem with h | h
  · exact absurd (by injection h) (by simp)
  · rcases List.mem_cons.mp h with h | h
    · cases h
    · cases h

/-- C3 counterexample: invoking the entry point on a fresh unit (no checkpoint
record) with a complete multi-chunk manifest produces a trace whose first
event is the remote `batch_process_documents` call; the trace fails the
order check "every remote call is preceded by a `status=PROCESSING`
checkpoint write". -/
theorem remote_call_precedes_processing_write :
    calls_after_processing_write false
      (lro_starter "op-1" "t" "e"
        (⟨some ⟨2, [0, 1]⟩, {0, 1}, none, none, none⟩ : DPState Nat)).2 = false ∧
    (lro_starter "op-1" "t" "e"
        (⟨some ⟨2, [0, 1]⟩, {0, 1}, none, none, none⟩ : DPState Nat)).2.head?
      = some (Event.remote RemoteCall.batch_process_documents) := by
  decide

/-- C3 (amended): in every `start_lro` invocation the remote
`batch_process_documents` call is issued first and the checkpoint write of
`status=IN_PROGRESS` with the returned operation handle follows immediately,
within the same invocation, leaving the record `IN_PROGRESS`; no `PROCESSING`
record is written before the remote call. -/
theorem start_lro_call_then_write {α : Type} (lro_name : String)
    (st : DPState α) :
    (start_lro lro_name st).2 =
      [Event.remote RemoteCall.batch_process_documents,
       Event.checkpoint_write ⟨some lro_name, "IN_PROGRESS"⟩] ∧
    (start_lro lro_name st).1.metadata = some ⟨some lro_name, "IN_PROGRESS"⟩ :=
  ⟨rfl, rfl⟩

end DocPipeline

namespace ChunkProcessor

theorem cp_step_processed_mono (u : String → Bool) (r : List String)
    (s : CPLocal × CPRemote) (f x : String) (hx : x ∈ s.1.processed) :
    x ∈ (process_chunk_step u r s f).1.processed := by
  simp only [process_chunk_step]
  split_ifs <;> simp [hx]

theorem cp_foldl_processed_mono (u : String → Bool) (r : List String) :
    ∀ (l : List String) (s : CPLocal × CPRemote) (x : String),
      x ∈ s.1.processed →
      x ∈ (l.foldl (process_chunk_step u r) s).1.processed := by
  intro l
  induction l with
  | nil => intro s x hx; exact hx
  | cons f t ih =>
    intro s x hx
    exact ih _ x (cp_step_processed_mono u r s f x hx)

theorem cp_step_error_mono (u : String → Bool) (r : List String)
    (s : CPLocal × CPRemote) (f : String) (e : FailEntry)
    (he : e ∈ s.2.error_log) :
    e ∈ (process_chunk_step u r s f).2.error_log := by
  simp only [process_chunk_step, save_failed_chunk]
  split_ifs <;> simp [he]

theorem cp_foldl_error_mono (u : String → Bool) (r : List String) :
    ∀ (l : List String) (s : CPLocal × CPRemote) (e : FailEntry),
      e ∈ s.2.error_log →
      e ∈ (l.foldl (process_chunk_step u r) s).2.error_log := by
  intro l
  induction l with
  | nil => intro s e he; exact he
  | cons f t ih =>
    intro s e he
    exact ih _ e (cp_step_error_mono u r s f e he)

theorem cp_step_success_mem (u : String → Bool) (r : List String)
    (s : CPLocal × CPRemote) (f : String) (hf : u f = true) :
    f ∈ (process_chunk_step u r s f).1.processed := by
  simp only [process_chunk_step]
  split_ifs <;> simp_all

theorem cp_step_fail_log (u : String → Bool) (r : List String)
    (s : CPLocal × CPRemote) (f : String) (hf : u f = false)
    (hnp : f ∉ s.1.processed) :
    (⟨f, "upload error"⟩ : FailEntry) ∈ (process_chunk_step u r s f).2.error_log := by
  simp [process_chunk_step, hnp, hf, save_failed_chunk]

theorem cp_foldl_processes (u : String → Bool) (r : List String) :
    ∀ (l : List String) (s : CPLocal × CPRemote) (g : String),
      g ∈ l → u g = true →
      g ∈ (l.foldl (process_chunk_step u r) s).1.processed := by
  intro l
  induction l with
  | nil => intro s g hg; exact absurd hg (List.not_mem_nil g)
  | cons f t ih =>
    intro s g hg hug
    rcases List.mem_cons.mp hg with rfl | hgt
    · exact cp_foldl_processed_mono u r t _ g (cp_step_success_mem u r s g hug)
    · exact ih _ g hgt hug

/-- C4: evaluation of `process_chunking` at the failing input.  The failure
log holds one stale entry for `chunk_001.json`; the chunk now uploads
successfully.  The run adds the chunk to the processed checkpoint, but the
two-argument `save_failed_chunk` call raises `TypeError`, the `except`
handler appends a fresh failure entry, and the stale entry is never removed:
the chunk ends up in the processed set *and* (twice) in the failure log,
violating the claimed invariant. -/
theorem retried_chunk_success_bug :
    (process_chunking (fun _ => true) 1
        ⟨[], [⟨"chunk_001.json", "boom"⟩], []⟩).2.checkpoint
      = ["chunk_001.json"] ∧
    (process_chunking (fun _ => true) 1
        ⟨[], [⟨"chunk_001.json", "boom"⟩], []⟩).2.error_log
      = [⟨"chunk_001.json", "boom"⟩, ⟨"chunk_001.json", typeErrorMsg⟩] ∧
    ("chunk_001.json" ∈ (process_chunking (fun _ => true) 1
        ⟨[], [⟨"chunk_001.json", "boom"⟩], []⟩).2.checkpoint ∧
     ∃ e ∈ (process_chunking (fun _ => true) 1
        ⟨[], [⟨"chunk_001.json", "boom"⟩], []⟩).2.error_log,
       e.chunk = "chunk_001.json") := by
  decide

end ChunkProcessor

namespace Embedder

open ChunkProcessor (FailEntry)

theorem emb_step_processed_mono (encodeOk : String → Bool) (st : EmbState)
    (b : EmbBlob) (x : String) (hx : x ∈ st.processed) :
    x ∈ (process_embedding_step encodeOk st b).processed := by
  simp only [process_embedding_step]
  split_ifs <;> simp [hx]

theorem emb_foldl_processed_mono (encodeOk : String → Bool) :
    ∀ (l : List EmbBlob) (st : EmbState) (x : String),
      x ∈ st.processed →
      x ∈ (l.foldl (process_embedding_step encodeOk) st).processed := by
  intro l
  induction l with
  | nil => intro st x hx; exact hx
  | cons b t ih =>
    intro st x hx
    exact ih _ x (emb_step_processed_mono encodeOk st b x hx)

theorem emb_step_success_mem (encodeOk : String → Bool) (st : EmbState)
    (b : EmbBlob) (hb : isBlank b.text = false) (he : encodeOk b.name = true) :
    embedding_filename b.name ∈ (process_embedding_step encodeOk st b).processed := by
  by_cases h1 : embedding_filename b.name ∈ st.processed
  · simpa [process_embedding_step, h1] using h1
  · simp [process_embedding_step, h1, hb, he]

theorem emb_step_fail_log (encodeOk : String → Bool) (st : EmbState)
    (b : EmbBlob) (hp : embedding_filename b.name ∉ st.processed)
    (hb : isBlank b.text = false) (he : encodeOk b.name = false) :
    (⟨b.name, "embedding error"⟩ : FailEntry) ∈
      (process_embedding_step encodeOk st b).remote_log := by
  simp [process_embedding_step, hp, hb, he]

theorem emb_foldl_processes (encodeOk : String → Bool) :
    ∀ (l : List EmbBlob) (st : EmbState) (g : EmbBlob),
      g ∈ l → isBlank g.text = false → encodeOk g.name = true →
      embedding_filename g.name ∈
        (l.foldl (process_embedding_step encodeOk) st).processed := by
  intro l
  induction l with
  | nil => intro st g hg; exact absurd hg (List.not_mem_nil g)
  | cons b t ih =>
    intro st g hg hbg heg
    rcases List.mem_cons.mp hg with rfl | hgt
    · exact emb_foldl_processed_mono encodeOk t _ _
        (emb_step_success_mem encodeOk st g hbg heg)
    · exact ih _ g hgt hbg heg

end Embedder

/-- C8: sub-unit failures are isolated.  In the chunk-processor loop, a chunk
whose upload raises gets a failure-log entry and every later chunk whose
upload succeeds still ends up in the processed set; in the embedder loop, a
blob whose embedding raises gets a failure entry recorded at that point and
every later non-blank blob whose embedding succeeds still ends up in the
processed set.  A sub-unit failure never aborts the siblings. -/
theorem sub_unit_failure_isolation :
    (∀ (uploadOk : String → Bool) (retry : List String)
        (s : ChunkProcessor.CPLocal × ChunkProcessor.CPRemote) (f : String)
        (post : List String),
      uploadOk f = false → f ∉ s.1.processed →
      ((∃ e ∈ ((f :: post).foldl
          (ChunkProcessor.process_chunk_step uploadOk retry) s).2.error_log,
          e.chunk = f) ∧
       ∀ g ∈ post, uploadOk g = true →
         g ∈ ((f :: post).foldl
           (ChunkProcessor.process_chunk_step uploadOk retry) s).1.processed)) ∧
    (∀ (encodeOk : String → Bool) (st : Embedder.EmbState)
        (b : Embedder.EmbBlob) (post : List Embedder.EmbBlob),
      Embedder.isBlank b.text = false → encodeOk b.name = false →
      Embedder.embedding_filename b.name ∉ st.processed →
      ((⟨b.name, "embedding error"⟩ : ChunkProcessor.FailEntry) ∈
          (Embedder.process_embedding_step encodeOk st b).remote_log ∧
       ∀ g ∈ post, Embedder.isBlank g.text = false → encodeOk g.name = true →
         Embedder.embedding_filename g.name ∈
           (Embedder.process_embedding encodeOk (b :: post) st).processed)) := by
  constructor
  · intro uploadOk retry s f post hf hnp
    constructor
    · refine ⟨⟨f, "upload error"⟩, ?_, rfl⟩
      rw [List.foldl_cons]
      exact ChunkProcessor.cp_foldl_error_mono uploadOk retry post _ _
        (ChunkProcessor.cp_step_fail_log uploadOk retry s f hf hnp)
    · intro g hg hug
      rw [List.foldl_cons]
      exact ChunkProcessor.cp_foldl_processes uploadOk retry post _ g hg hug
  · intro encodeOk st b post hb he hp
    constructor
    · exact Embedder.emb_step_fail_log encodeOk st b hp hb he
    · intro g hg hbg heg
      rw [Embedder.process_embedding, List.foldl_cons]
      exact Embedder.emb_foldl_processes encodeOk post _ g hg hbg heg

/-- Witness for C8: chunk `a` fails while chunk `b` succeeds, blob
`bad.json` fails while blob `good.json` succeeds. -/
theorem sub_unit_failure_isolation_witness :
    ((fun s => s == "b") "a" = false ∧
     "a" ∉ ((⟨[], []⟩, ⟨[], [], []⟩) :
        ChunkProcessor.CPLocal × ChunkProcessor.CPRemote).1.processed ∧
     ((∃ e ∈ (["a", "b"].foldl
          (ChunkProcessor.process_chunk_step (fun s => s == "b") [])
          (⟨[], []⟩, ⟨[], [], []⟩)).2.error_log, e.chunk = "a") ∧
      ∀ g ∈ ["b"], (fun s => s == "b") g = true →
        g ∈ (["a", "b"].foldl
          (ChunkProcessor.process_chunk_step (fun s => s == "b") [])
          (⟨[], []⟩, ⟨[], [], []⟩)).1.processed)) ∧
    (Embedder.isBlank (Embedder.EmbBlob.mk "bad.json" "x").text = false ∧
     (fun s => s == "good.json") (Embedder.EmbBlob.mk "bad.json" "x").name = false ∧
     Embedder.embedding_filename (Embedder.EmbBlob.mk "bad.json" "x").name ∉
        (Embedder.EmbState.mk [] [] [] [] []).processed ∧
     ((⟨"bad.json", "embedding error"⟩ : ChunkProcessor.FailEntry) ∈
        (Embedder.process_embedding_step (fun s => s == "good.json")
          (Embedder.EmbState.mk [] [] [] [] [])
          (Embedder.EmbBlob.mk "bad.json" "x")).remote_log ∧
      ∀ g ∈ [Embedder.EmbBlob.mk "good.json" "y"],
        Embedder.isBlank g.text = false →
        (fun s => s == "good.json") g.name = true →
        Embedder.embedding_filename g.name ∈
          (Embedder.process_embedding (fun s => s == "good.json")
            [Embedder.EmbBlob.mk "bad.json" "x", Embedder.EmbBlob.mk "good.json" "y"]
            (Embedder.EmbState.mk [] [] [] [] [])).processed)) :=
  ⟨⟨by decide, by decide,
    sub_unit_failure_isolation.1 (fun s => s == "b") []
      (⟨[], []⟩, ⟨[], [], []⟩) "a" ["b"] (by decide) (by decide)⟩,
   ⟨by decide, by decide, by decide,
    sub_unit_failure_isolation.2 (fun s => s == "good.json")
      (Embedder.EmbState.mk [] [] [] [] []) (Embedder.EmbBlob.mk "bad.json" "x")
      [Embedder.EmbBlob.mk "good.json" "y"] (by decide) (by decide) (by decide)⟩⟩

namespace RetryPolicy

theorem start_lro_delay_pos (n : Nat) : 1 ≤ start_lro_delay n := by
  have h2 : 1 ≤ 2 ^ n := Nat.one_le_two_pow
  simp only [start_lro_delay, backoff_delay, one_mul]
  omega

theorem retry_exhausts (d : Nat) :
    ∀ (s : Nat → Bool) (n e : Nat), 600 - e ≤ d → (∀ k, s k = false) →
      retry_from s 600 n e = none := by
  induction d with
  | zero =>
    intro s n e hd hs
    rw [retry_from]
    simp only [hs n, Bool.false_eq_true, if_false]
    rw [if_pos (by omega)]
  | succ d ih =>
    intro s n e hd hs
    rw [retry_from]
    simp only [hs n, Bool.false_eq_true, if_false]
    by_cases he : 600 ≤ e
    · rw [if_pos he]
    · rw [if_neg he]
      refine ih s (n + 1) (e + start_lro_delay n) ?_ hs
      have := start_lro_delay_pos n
      omega

/-- C7: the delays of the retry policy on `start_lro` start at one time unit,
double on each failed attempt, are capped at 60 units, and when every attempt
fails transiently the surrounding call terminates with failure (`none`, the
`TransientRetryExhausted` promotion) once the elapsed time reaches the
600-unit deadline, instead of retrying forever. -/
theorem retry_backoff_policy :
    start_lro_delay 0 = 1 ∧
    (∀ n, start_lro_delay (n + 1) = min (2 * start_lro_delay n) 60) ∧
    (∀ n, start_lro_delay n ≤ 60) ∧
    (∀ (s : Nat → Bool) (n e : Nat), (∀ k, s k = false) →
      retry_from s 600 n e = none) ∧
    (∀ s : Nat → Bool, (∀ k, s k = false) → start_lro_with_retry s = none) := by
  refine ⟨by decide, ?_, ?_, ?_, ?_⟩
  · intro n
    simp only [start_lro_delay, backoff_delay, one_mul, pow_succ]
    have h2 : 1 ≤ 2 ^ n := Nat.one_le_two_pow
    omega
  · intro n
    simp only [start_lro_delay, backoff_delay, one_mul]
    omega
  · intro s n e hs
    exact retry_exhausts (600 - e) s n e le_rfl hs
  · intro s hs
    exact retry_exhausts 600 s 0 0 (by omega) hs

/-- Witness for C7: the doubling law at `n = 3` and exhaustion for the
constantly failing attempt sequence. -/
theorem retry_backoff_policy_witness :
    start_lro_delay 4 = min (2 * start_lro_delay 3) 60 ∧
    retry_from (fun _ => false) 600 0 0 = none ∧
    start_lro_with_retry (fun _ => false) = none :=
  ⟨retry_backoff_policy.2.1 3,
   retry_backoff_policy.2.2.2.1 (fun _ => false) 0 0 (fun _ => rfl),
   retry_backoff_policy.2.2.2.2 (fun _ => false) (fun _ => rfl)⟩

end RetryPolicy

namespace Embedder

theorem emb_step_eq_of_blank (encodeOk : String → Bool) (st : EmbState)
    (b : EmbBlob) (h2 : isBlank b.text = true) :
    process_embedding_step encodeOk st b = st := by
  simp [process_embedding_step, h2]

theorem emb_step_eq_success (encodeOk : String → Bool) (st : EmbState)
    (b : EmbBlob) (h1 : embedding_filename b.name ∉ st.processed)
    (h2 : isBlank b.text = false) (h3 : encodeOk b.name = true) :
    process_embedding_step encodeOk st b =
      { st with
        embeddings := st.embeddings ++ [embedding_filename b.name],
        processed := st.processed ++ [embedding_filename b.name],
        checkpoint := st.processed ++ [embedding_filename b.name],
        failed_local := st.failed_local.filter (fun e => e.chunk ≠ b.name),
        remote_log := st.failed_local.filter (fun e => e.chunk ≠ b.name) } := by
  simp [process_embedding_step, h1, h2, h3]

theorem emb_step_eq_failure (encodeOk : String → Bool) (st : EmbState)
    (b : EmbBlob) (h1 : embedding_filename b.name ∉ st.processed)
    (h2 : isBlank b.text = false) (h3 : encodeOk b.name = false) :
    process_embedding_step encodeOk st b =
      { st with remote_log := st.remote_log ++ [⟨b.name, "embedding error"⟩] } := by
  simp [process_embedding_step, h1, h2, h3]

theorem emb_step_untouched (encodeOk : String → Bool) (c b : EmbBlob)
    (st : EmbState)
    (hb : embedding_filename b.name = embedding_filename c.name →
      isBlank b.text = true)
    (hp : embedding_filename c.name ∉ st.processed)
    (hcp : embedding_filename c.name ∉ st.checkpoint)
    (hemb : embedding_filename c.name ∉ st.embeddings)
    (hrl : ∀ e ∈ st.remote_log, e.chunk ≠ c.name)
    (hfl : ∀ e ∈ st.failed_local, e.chunk ≠ c.name) :
    embedding_filename c.name ∉ (process_embedding_step encodeOk st b).processed ∧
    embedding_filename c.name ∉ (process_embedding_step encodeOk st b).checkpoint ∧
    embedding_filename c.name ∉ (process_embedding_step encodeOk st b).embeddings ∧
    (∀ e ∈ (process_embedding_step encodeOk st b).remote_log, e.chunk ≠ c.name) ∧
    (∀ e ∈ (process_embedding_step encodeOk st b).failed_local, e.chunk ≠ c.name) := by
  by_cases h1 : embedding_filename b.name ∈ st.processed
  · have heq : process_embedding_step encodeOk st b = st := by
      simp [process_embedding_step, h1]
    rw [heq]
    exact ⟨hp, hcp, hemb, hrl, hfl⟩
  · by_cases h2 : isBlank b.text = true
    · rw [emb_step_eq_of_blank encodeOk st b h2]
      exact ⟨hp, hcp, hemb, hrl, hfl⟩
    · have h2f : isBlank b.text = false := by
        revert h2
        cases isBlank b.text <;> simp
      have hne : embedding_filename b.name ≠ embedding_filename c.name := by
        intro heq
        rw [hb heq] at h2f
        cases h2f
      have hbc : b.name ≠ c.name := by
        intro heq
        exact hne (by rw [heq])
      by_cases h3 : encodeOk b.name = true
      · rw [emb_step_eq_success encodeOk st b h1 h2f h3]
        refine ⟨?_, ?_, ?_, ?_, ?_⟩
        · intro hmem
          rcases List.mem_append.mp hmem with h | h
          · exact hp h
          · simp only [List.mem_singleton] at h
            exact hne h.symm
        · intro hmem
          rcases List.mem_append.mp hmem with h | h
          · exact hp h
          · simp only [List.mem_singleton] at h
            exact hne h.symm
        · intro hmem
          rcases List.mem_append.mp hmem with h | h
          · exact hemb h
          · simp only [List.mem_singleton] at h
            exact hne h.symm
        · intro e he
          exact hfl e (List.mem_of_mem_filter he)
        · intro e he
          exact hfl e (List.mem_of_mem_filter he)
      · have h3f : encodeOk b.name = false := by
          revert h3
          cases encodeOk b.name <;> simp
        rw [emb_step_eq_failure encodeOk st b h1 h2f h3f]
        refine ⟨hp, hcp, hemb, ?_, hfl⟩
        intro e he
        rcases List.mem_append.mp he with h | h
        · exact hrl e h
        · simp only [List.mem_singleton] at h
          rw [h]
          exact hbc

theorem emb_run_untouched (encodeOk : String → Bool) (c : EmbBlob) :
    ∀ (blobs : List EmbBlob) (st : EmbState),
      (∀ b ∈ blobs, embedding_filename b.name = embedding_filename c.name →
        isBlank b.text = true) →
      embedding_filename c.name ∉ st.processed →
      embedding_filename c.name ∉ st.checkpoint →
      embedding_filename c.name ∉ st.embeddings →
      (∀ e ∈ st.remote_log, e.chunk ≠ c.name) →
      (∀ e ∈ st.failed_local, e.chunk ≠ c.name) →
      (embedding_filename c.name ∉ (process_embedding encodeOk blobs st).processed ∧
       embedding_filename c.name ∉ (process_embedding encodeOk blobs st).checkpoint ∧
       embedding_filename c.name ∉ (process_embedding encodeOk blobs st).embeddings ∧
       (∀ e ∈ (process_embedding encodeOk blobs st).remote_log, e.chunk ≠ c.name) ∧
       (∀ e ∈ (process_embedding encodeOk blobs st).failed_local, e.chunk ≠ c.name)) := by
  intro blobs
  induction blobs with
  | nil =>
    intro st hn hp hcp hemb hrl hfl
    exact ⟨hp, hcp, hemb, hrl, hfl⟩
  | cons b t ih =>
    intro st hn hp hcp hemb hrl hfl
    have hstep := emb_step_untouched encodeOk c b st
      (hn b (List.mem_cons_self b t)) hp hcp hemb hrl hfl
    rw [process_embedding, List.foldl_cons]
    exact ih (process_embedding_step encodeOk st b)
      (fun x hx => hn x (List.mem_cons_of_mem b hx))
      hstep.1 hstep.2.1 hstep.2.2.1 hstep.2.2.2.1 hstep.2.2.2.2

/-- C10: a stored text chunk whose `text` is empty or whitespace-only is
skipped by `process_embedding` before any fallible operation: the iteration
on it changes nothing at all, and over a whole run (for a chunk name whose
blobs are all blank and which has not been touched before) no embedding
object is written, the chunk never enters the processed checkpoint, and no
failure-log entry is recorded — the chunk is silently re-examined on each run
and never reaches a terminal state. -/
theorem blank_chunk_never_terminal (encodeOk : String → Bool)
    (blobs : List EmbBlob) (st : EmbState) (c : EmbBlob)
    (hblank : isBlank c.text = true)
    (hn : ∀ b ∈ blobs, embedding_filename b.name = embedding_filename c.name →
      isBlank b.text = true)
    (hp : embedding_filename c.name ∉ st.processed)
    (hcp : embedding_filename c.name ∉ st.checkpoint)
    (hemb : embedding_filename c.name ∉ st.embeddings)
    (hrl : ∀ e ∈ st.remote_log, e.chunk ≠ c.name)
    (hfl : ∀ e ∈ st.failed_local, e.chunk ≠ c.name) :
    (∀ s : EmbState, process_embedding_step encodeOk s c = s) ∧
    (embedding_filename c.name ∉ (process_embedding encodeOk blobs st).processed ∧
     embedding_filename c.name ∉ (process_embedding encodeOk blobs st).checkpoint ∧
     embedding_filename c.name ∉ (process_embedding encodeOk blobs st).embeddings ∧
     (∀ e ∈ (process_embedding encodeOk blobs st).remote_log, e.chunk ≠ c.name) ∧
     (∀ e ∈ (process_embedding encodeOk blobs st).failed_local, e.chunk ≠ c.name)) :=
  ⟨fun s => emb_step_eq_of_blank encodeOk s c hblank,
   emb_run_untouched encodeOk c blobs st hn hp hcp hemb hrl hfl⟩

/-- Witness for C10: a whitespace-only chunk `chunk_002.json` among a
non-blank sibling, starting from empty state. -/
theorem blank_chunk_never_terminal_witness :
    isBlank (EmbBlob.mk "chunk_002.json" " ").text = true ∧
    ((∀ s : EmbState,
        process_embedding_step (fun _ => true) s (EmbBlob.mk "chunk_002.json" " ") = s) ∧
     (embedding_filename "chunk_002.json" ∉
        (process_embedding (fun _ => true)
          [EmbBlob.mk "chunk_002.json" " ", EmbBlob.mk "chunk_003.json" "hello"]
          (EmbState.mk [] [] [] [] [])).processed ∧
      embedding_filename "chunk_002.json" ∉
        (process_embedding (fun _ => true)
          [EmbBlob.mk "chunk_002.json" " ", EmbBlob.mk "chunk_003.json" "hello"]
          (EmbState.mk [] [] [] [] [])).checkpoint ∧
      embedding_filename "chunk_002.json" ∉
        (process_embedding (fun _ => true)
          [EmbBlob.mk "chunk_002.json" " ", EmbBlob.mk "chunk_003.json" "hello"]
          (EmbState.mk [] [] [] [] [])).embeddings ∧
      (∀ e ∈ (process_embedding (fun _ => true)
          [EmbBlob.mk "chunk_002.json" " ", EmbBlob.mk "chunk_003.json" "hello"]
          (EmbState.mk [] [] [] [] [])).remote_log, e.chunk ≠ "chunk_002.json") ∧
      (∀ e ∈ (process_embedding (fun _ => true)
          [EmbBlob.mk "chunk_002.json" " ", EmbBlob.mk "chunk_003.json" "hello"]
          (EmbState.mk [] [] [] [] [])).failed_local, e.chunk ≠ "chunk_002.json"))) :=
  ⟨by decide,
   blank_chunk_never_terminal (fun _ => true)
    [EmbBlob.mk "chunk_002.json" " ", EmbBlob.mk "chunk_003.json" "hello"]
    (EmbState.mk [] [] [] [] []) (EmbBlob.mk "chunk_002.json" " ")
    (by decide) (by decide) (by decide) (by decide) (by decide) (by decide)
    (by decide)⟩

end Embedder
